import Mathlib

/-!
Verification development for the pulsarconsole authorization engine.

The definitions below are a shallow embedding of the Python sources:
  * `app/services/rbac.py`        — permission checking (RBACService)
  * `app/services/rbac_sync.py`   — Console/Pulsar RBAC synchronization
  * `app/services/pulsar_auth.py` — Pulsar-side permission operations
  * `app/services/auth.py`        — login-time group/role reconciliation
  * `app/db/seed_data.py`         — the permission-action vocabulary

Database rows are modelled as Lean structures; tables as lists of rows;
the asynchronous DB session is modelled by explicit state passing.
Python exceptions are modelled with `Except`/`Option`.
-/

namespace PulsarConsole

/-- Permission actions, from `app/models/permission.py`
(member names as referenced throughout `app/db/seed_data.py`). -/
inductive PermissionAction
  | produce | consume | functions | sources | sinks | packages
  | admin | read | write
deriving DecidableEq, Repr

/-- String value of each action (Python `PermissionAction` is a `str` enum
whose values are the member names, as used in `seed_data.py` patterns). -/
def PermissionAction.value : PermissionAction → String
  | .produce => "produce"
  | .consume => "consume"
  | .functions => "functions"
  | .sources => "sources"
  | .sinks => "sinks"
  | .packages => "packages"
  | .admin => "admin"
  | .read => "read"
  | .write => "write"

/-- `PermissionAction(action_str)`: the enum constructor applied to a string;
`none` models the `ValueError` Python raises for an unknown value. -/
def parseAction (s : String) : Option PermissionAction :=
  if s = "produce" then some .produce
  else if s = "consume" then some .consume
  else if s = "functions" then some .functions
  else if s = "sources" then some .sources
  else if s = "sinks" then some .sinks
  else if s = "packages" then some .packages
  else if s = "admin" then some .admin
  else if s = "read" then some .read
  else if s = "write" then some .write
  else none

/-- Resource levels, from `app/models/permission.py` via `seed_data.py`. -/
inductive ResourceLevel
  | cluster | tenant | namespace | topic
deriving DecidableEq, Repr

/-- `ResourceLevel(level_str)`; `none` models the `ValueError`. -/
def parseLevel (s : String) : Option ResourceLevel :=
  if s = "cluster" then some .cluster
  else if s = "tenant" then some .tenant
  else if s = "namespace" then some .namespace
  else if s = "topic" then some .topic
  else none

/-- RBAC sync modes, from `app/models/environment.py` (`RBACSyncMode`). -/
inductive RBACSyncMode
  | console_only | sync_to_pulsar | read_from_pulsar
deriving DecidableEq, Repr

/-- Environment row (`app/models/environment.py`), restricted to the fields
the authorization engine reads. -/
structure Environment where
  id : Nat
  rbac_enabled : Bool
  rbac_sync_mode : RBACSyncMode
deriving DecidableEq, Repr

/-- User row (`app/models/user.py`), restricted to the fields read here. -/
structure User where
  id : Nat
  is_global_admin : Bool
deriving DecidableEq, Repr

/-- Role row (`app/models/role.py`, table referenced by the services). -/
structure Role where
  id : Nat
  environment_id : Nat
  name : String
  is_system : Bool
deriving DecidableEq, Repr

/-- User-role assignment row (`app/models/user_role.py`). -/
structure UserRole where
  user_id : Nat
  role_id : Nat
  assigned_by : Option Nat
deriving DecidableEq, Repr

/-- Role-permission grant row: `role_id` plus the `(action, resource_level)`
of the referenced catalog permission, plus the grant's resource pattern. -/
structure RoleGrant where
  role_id : Nat
  action : PermissionAction
  resource_level : ResourceLevel
  resource_pattern : Option String
deriving DecidableEq, Repr

/-- The relational store slice read by `RBACService.check_permission`. -/
structure Db where
  users : List User
  roles : List Role
  user_roles : List UserRole
  grants : List RoleGrant
  environments : List Environment
deriving Repr

/-! ## Resource-pattern matching

The matcher itself lives in `app/repositories/user_role.py`, which is not
among the provided sources; the spec (§4.3) defines it and flags it as the
normative reconstruction. -/

/-- Modelled from the spec: the wildcard rule of §4.3 on character lists.
`"*"` matches everything; a pattern ending in `"/*"` matches any path whose
truncation to the length of the part before the `"*"` equals that part;
otherwise exact equality. (The matcher in `app/repositories/user_role.py`
is absent from the provided sources.) -/
def matchChars (p path : List Char) : Bool :=
  if p = ['*'] then true
  else if p.reverse.take 2 = ['*', '/'] then
    path.take p.dropLast.length == p.dropLast
  else path == p

/-- Modelled from the spec: §4.3 pattern matching on an optional pattern —
a `NULL` pattern matches any path. -/
def matchesPattern (pat : Option String) (path : String) : Bool :=
  match pat with
  | none => true
  | some p => matchChars p.toList path.toList

/-! ## Policy evaluator (`RBACService`, `app/services/rbac.py`) -/

/-- `UserRepository.get_by_id`: first user row with the given id. -/
def findUser (db : Db) (uid : Nat) : Option User :=
  db.users.find? (fun u => u.id == uid)

/-- `EnvironmentRepository.get_by_id`: first environment row with the id. -/
def findEnv (db : Db) (eid : Nat) : Option Environment :=
  db.environments.find? (fun e => e.id == eid)

/-- Modelled from the spec: `UserRoleRepository.has_role_by_name_any_environment`
(`app/repositories/user_role.py` is absent from the provided sources); per
§4.3 step 2 and the docstring of `RBACService.has_superuser_access`, the user
holds a role of the given name in any environment. -/
def has_role_by_name_any_environment (db : Db) (uid : Nat) (name : String) : Bool :=
  db.user_roles.any fun ur =>
    ur.user_id == uid &&
    db.roles.any (fun r => r.id == ur.role_id && r.name == name)

/-- `RBACService.has_superuser_access`: global-admin flag, or the
`superuser` role held in any environment. -/
def has_superuser_access (db : Db) (uid : Nat) : Bool :=
  (match findUser db uid with
   | some u => u.is_global_admin
   | none => false)
  || has_role_by_name_any_environment db uid "superuser"

/-- `RBACService.is_rbac_enabled`: `env.rbac_enabled if env else False`. -/
def is_rbac_enabled (db : Db) (eid : Nat) : Bool :=
  match findEnv db eid with
  | some env => env.rbac_enabled
  | none => false

/-- Modelled from the spec: `UserRoleRepository.check_permission` (absent from
the provided sources), per §4.3 step 4: some role assigned to the user in this
environment carries a grant for `(action, level)` whose pattern matches the
path (a missing path is matched as the empty path). -/
def repoCheckPermission (db : Db) (uid eid : Nat) (action : PermissionAction)
    (level : ResourceLevel) (path : Option String) : Bool :=
  db.user_roles.any fun ur =>
    ur.user_id == uid &&
    db.roles.any (fun r => r.id == ur.role_id && r.environment_id == eid) &&
    db.grants.any (fun g =>
      g.role_id == ur.role_id && g.action == action &&
      g.resource_level == level &&
      matchesPattern g.resource_pattern (path.getD ""))

/-- `RBACService.check_permission` (`app/services/rbac.py`): superuser bypass,
then the RBAC-disabled bypass, then enum conversion of the action/level
strings (`none` models the `ValueError` an unknown string raises), then the
assignment/grant lookup. -/
def check_permission (db : Db) (uid eid : Nat) (action level : String)
    (path : Option String) : Option Bool :=
  if has_superuser_access db uid then some true
  else if !is_rbac_enabled db eid then some true
  else
    match parseAction action, parseLevel level with
    | some a, some l => some (repoCheckPermission db uid eid a l path)
    | _, _ => none

/-! ## Sync engine (`RbacSyncService`, `app/services/rbac_sync.py`) -/

/-- `SyncDirection` (`app/services/rbac_sync.py`). -/
inductive SyncDirection
  | console_to_pulsar | pulsar_to_console
deriving DecidableEq, Repr

/-- `SyncChange` dataclass (`app/services/rbac_sync.py`). -/
structure SyncChange where
  action : String
  resource_type : String
  resource_id : String
  role : String
  permissions : List String
  source : String
deriving DecidableEq, Repr

/-- `SyncPreview` dataclass (`app/services/rbac_sync.py`). -/
structure SyncPreview where
  direction : SyncDirection
  changes : List SyncChange
  warnings : List String
  errors : List String
deriving DecidableEq, Repr

/-- `SyncPreview.has_changes`. -/
def SyncPreview.has_changes (p : SyncPreview) : Bool :=
  !(p.changes.length == 0)

/-- `SyncPreview.can_proceed`. -/
def SyncPreview.can_proceed (p : SyncPreview) : Bool :=
  p.errors.length == 0

/-- `SyncResult` dataclass (`app/services/rbac_sync.py`). -/
structure SyncResult where
  success : Bool
  changes_applied : Nat
  changes_failed : Nat
  details : List String
  errors : List String
deriving DecidableEq, Repr

/-- Console permission row as written by the sync engine's repository calls
(`perm_repo.create(role_id, action, resource_level, resource_path)` in
`app/services/rbac_sync.py`). -/
structure ConsoleGrant where
  role_id : Nat
  action : PermissionAction
  resource_level : ResourceLevel
  resource_path : String
deriving DecidableEq, Repr

/-- State the sync engine reads and writes: the Console's role and grant
tables, and the external broker's per-namespace permission store
(`path ↦ role ↦ actions`), modelled from the spec's §6 boundary. A fresh
id counter models row-id allocation for auto-created roles. -/
structure SyncState where
  roles : List Role
  cgrants : List ConsoleGrant
  pulsar : List (String × List (String × List String))
  nextRoleId : Nat
deriving DecidableEq, Repr

/-- Permission map of one broker namespace, keyed by role. -/
def pulsarNs (st : SyncState) (path : String) : List (String × List String) :=
  (List.lookup path st.pulsar).getD []

/-- Replace (or append) the permission map of one broker namespace. -/
def setPulsarNs (st : SyncState) (path : String)
    (perms : List (String × List String)) : SyncState :=
  if st.pulsar.any (fun e => e.1 == path) then
    { st with pulsar := st.pulsar.map (fun e => if e.1 == path then (path, perms) else e) }
  else
    { st with pulsar := st.pulsar ++ [(path, perms)] }

/-- The action vocabulary `PulsarAuthService.grant_namespace_permission`
accepts (`app/services/pulsar_auth.py`). -/
def validPulsarNamespaceActions : List String :=
  ["produce", "consume", "functions", "packages", "sinks", "sources"]

/-- `PulsarAuthService.grant_namespace_permission`
(`app/services/pulsar_auth.py`): raises `ValueError` when any action is
outside the fixed vocabulary, otherwise writes `role ↦ actions` into the
broker's namespace permissions (broker semantics modelled from the spec §6). -/
def grant_namespace_permission (st : SyncState) (tenant ns role : String)
    (actions : List String) : Except String SyncState :=
  if actions.all (fun a => validPulsarNamespaceActions.contains a) then
    let path := tenant ++ "/" ++ ns
    let perms := pulsarNs st path
    let perms :=
      if perms.any (fun e => e.1 == role) then
        perms.map (fun e => if e.1 == role then (role, actions) else e)
      else perms ++ [(role, actions)]
    .ok (setPulsarNs st path perms)
  else .error "Invalid actions"

/-- `PulsarAuthService.revoke_namespace_permission`: removes the role's
entry from the broker's namespace permissions (spec §6 boundary). -/
def revoke_namespace_permission (st : SyncState) (tenant ns role : String) :
    SyncState :=
  let path := tenant ++ "/" ++ ns
  setPulsarNs st path ((pulsarNs st path).filter (fun e => !(e.1 == role)))

/-- `RbacSyncService.get_console_permissions`: for every role of the
environment, the actions of its grants on exactly this namespace path;
roles with no such grant are omitted. -/
def get_console_permissions (envId : Nat) (st : SyncState) (tenant ns : String) :
    List (String × List String) :=
  let path := tenant ++ "/" ++ ns
  (st.roles.filter (fun r => r.environment_id == envId)).filterMap fun r =>
    let actions :=
      (st.cgrants.filter (fun g =>
        g.role_id == r.id && g.resource_level == ResourceLevel.namespace &&
        g.resource_path == path)).map (fun g => g.action.value)
    if actions.isEmpty then none else some (r.name, actions)

/-- `RbacSyncService.set_console_permission`: get-or-create the role, clear
its grants on this namespace path, then insert one grant per action string
that parses as a `PermissionAction`; unknown actions are skipped with a
warning. -/
def set_console_permission (envId : Nat) (st : SyncState) (tenant ns : String)
    (role_name : String) (actions : List String) : SyncState :=
  let path := tenant ++ "/" ++ ns
  let found := st.roles.find? (fun r => r.name == role_name && r.environment_id == envId)
  let (role, st) :=
    match found with
    | some r => (r, st)
    | none =>
      let r : Role := ⟨st.nextRoleId, envId, role_name, false⟩
      (r, { st with roles := st.roles ++ [r], nextRoleId := st.nextRoleId + 1 })
  let st := { st with
    cgrants := st.cgrants.filter (fun g =>
      !(g.role_id == role.id && g.resource_level == ResourceLevel.namespace &&
        g.resource_path == path)) }
  { st with
    cgrants := st.cgrants ++
      actions.filterMap (fun a =>
        (parseAction a).map (fun pa => ⟨role.id, pa, ResourceLevel.namespace, path⟩)) }

/-- `RbacSyncService.remove_console_permission`: if the role exists, delete
all of its grants on this namespace path. -/
def remove_console_permission (envId : Nat) (st : SyncState) (tenant ns : String)
    (role_name : String) : SyncState :=
  let path := tenant ++ "/" ++ ns
  match st.roles.find? (fun r => r.name == role_name && r.environment_id == envId) with
  | some role =>
    { st with
      cgrants := st.cgrants.filter (fun g =>
        !(g.role_id == role.id && g.resource_level == ResourceLevel.namespace &&
          g.resource_path == path)) }
  | none => st

/-- Observation: the actions the Console stores for one role on one
namespace path (the read performed by `perm_repo.get_by_role_and_resource`
for that role). -/
def consoleActions (envId : Nat) (st : SyncState) (tenant ns role_name : String) :
    List PermissionAction :=
  let path := tenant ++ "/" ++ ns
  match st.roles.find? (fun r => r.name == role_name && r.environment_id == envId) with
  | some role =>
    (st.cgrants.filter (fun g =>
      g.role_id == role.id && g.resource_level == ResourceLevel.namespace &&
      g.resource_path == path)).map (fun g => g.action)
  | none => []

/-- Mutual set-membership of two action lists: `set(a) == set(b)` in
`RbacSyncService.get_diff`. -/
def sameSet (a b : List String) : Bool :=
  a.all (fun x => b.contains x) && b.all (fun x => a.contains x)

/-- The diff record returned by `RbacSyncService.get_diff`; `different`
carries the console and pulsar action lists, in that order. -/
structure Diff where
  only_in_console : List (String × List String)
  only_in_pulsar : List (String × List String)
  different : List (String × List String × List String)
  same : List (String × List String)
  total_console : Nat
  total_pulsar : Nat
deriving DecidableEq, Repr

/-- The classification loop of `RbacSyncService.get_diff` over the two
permission maps it has read: console roles fall into `only_in_console`,
`different` or `same` by lookup into the pulsar map; pulsar roles absent
from the console map fall into `only_in_pulsar`; totals are map sizes. -/
def diffMaps (console pulsar : List (String × List String)) : Diff where
  only_in_console := console.filterMap fun x =>
    match List.lookup x.1 pulsar with
    | none => some x
    | some _ => none
  only_in_pulsar := pulsar.filter fun y =>
    !(console.any (fun x => x.1 == y.1))
  different := console.filterMap fun x =>
    match List.lookup x.1 pulsar with
    | some pa => if sameSet x.2 pa then none else some (x.1, x.2, pa)
    | none => none
  same := console.filterMap fun x =>
    match List.lookup x.1 pulsar with
    | some pa => if sameSet x.2 pa then some x else none
    | none => none
  total_console := console.length
  total_pulsar := pulsar.length

/-- `RbacSyncService.get_diff`: read both sides for the namespace, then
classify (the pulsar side is read through
`PulsarAuthService.get_namespace_permissions`). -/
def get_diff (env : Environment) (st : SyncState) (tenant ns : String) : Diff :=
  diffMaps (get_console_permissions env.id st tenant ns)
    (pulsarNs st (tenant ++ "/" ++ ns))

/-- `RbacSyncService.preview_sync`: defaults the direction from the
environment's sync mode (an error preview when the mode is `console_only`),
then turns the diff into an ordered change list: adds, then removes (with a
warning each), then updates, authoritative side first. -/
def preview_sync (env : Environment) (st : SyncState) (tenant ns : String)
    (direction : Option SyncDirection) : SyncPreview :=
  let resolved : Option SyncDirection :=
    match direction with
    | some d => some d
    | none =>
      match env.rbac_sync_mode with
      | .sync_to_pulsar => some .console_to_pulsar
      | .read_from_pulsar => some .pulsar_to_console
      | .console_only => none
  match resolved with
  | none =>
    { direction := .console_to_pulsar
      changes := []
      warnings := []
      errors := ["RBAC sync is not enabled for this environment"] }
  | some dir =>
    let diff := get_diff env st tenant ns
    let rid := tenant ++ "/" ++ ns
    match dir with
    | .console_to_pulsar =>
      { direction := dir
        changes :=
          diff.only_in_console.map (fun x =>
            ⟨"add", "namespace", rid, x.1, x.2, "console"⟩) ++
          diff.only_in_pulsar.map (fun x =>
            ⟨"remove", "namespace", rid, x.1, x.2, "pulsar"⟩) ++
          diff.different.map (fun x =>
            ⟨"update", "namespace", rid, x.1, x.2.1, "console"⟩)
        warnings := diff.only_in_pulsar.map (fun x =>
          "Role " ++ x.1 ++ " exists only in Pulsar and will be removed")
        errors := [] }
    | .pulsar_to_console =>
      { direction := dir
        changes :=
          diff.only_in_pulsar.map (fun x =>
            ⟨"add", "namespace", rid, x.1, x.2, "pulsar"⟩) ++
          diff.only_in_console.map (fun x =>
            ⟨"remove", "namespace", rid, x.1, x.2, "console"⟩) ++
          diff.different.map (fun x =>
            ⟨"update", "namespace", rid, x.1, x.2.2, "pulsar"⟩)
        warnings := diff.only_in_console.map (fun x =>
          "Role " ++ x.1 ++ " exists only in Console and will be removed")
        errors := [] }

/-- `RbacSyncService._apply_to_pulsar`: add/update grants the change's
permissions; remove revokes the role; other action strings fall through. -/
def apply_to_pulsar (st : SyncState) (change : SyncChange) (tenant ns : String) :
    Except String SyncState :=
  if change.action == "add" || change.action == "update" then
    grant_namespace_permission st tenant ns change.role change.permissions
  else if change.action == "remove" then
    .ok (revoke_namespace_permission st tenant ns change.role)
  else .ok st

/-- `RbacSyncService._apply_to_console`: add/update writes the change's
permissions for the role; remove deletes the role's grants on the
namespace; other action strings fall through. -/
def apply_to_console (envId : Nat) (st : SyncState) (change : SyncChange)
    (tenant ns : String) : Except String SyncState :=
  if change.action == "add" || change.action == "update" then
    .ok (set_console_permission envId st tenant ns change.role change.permissions)
  else if change.action == "remove" then
    .ok (remove_console_permission envId st tenant ns change.role)
  else .ok st

/-- One iteration of the apply loop in `RbacSyncService.sync_namespace`:
dispatch on the preview's direction. -/
def applyOne (env : Environment) (dir : SyncDirection) (st : SyncState)
    (change : SyncChange) (tenant ns : String) : Except String SyncState :=
  match dir with
  | .console_to_pulsar => apply_to_pulsar st change tenant ns
  | .pulsar_to_console => apply_to_console env.id st change tenant ns

/-- The apply loop of `RbacSyncService.sync_namespace`: each change is
attempted in order; a success advances the state, increments `applied` and
appends a detail line; a raised exception leaves the state, increments
`failed` and appends an error line; the loop always continues with the
remaining changes. Returns `(applied, failed, details, errors, state)`. -/
def applyChanges (env : Environment) (dir : SyncDirection) (tenant ns : String) :
    List SyncChange → SyncState → Nat × Nat × List String × List String × SyncState
  | [], st => (0, 0, [], [], st)
  | c :: cs, st =>
    match applyOne env dir st c tenant ns with
    | .ok st' =>
      let r := applyChanges env dir tenant ns cs st'
      (r.1 + 1, r.2.1, (c.action ++ " " ++ c.role) :: r.2.2.1, r.2.2.2.1, r.2.2.2.2)
    | .error e =>
      let r := applyChanges env dir tenant ns cs st
      (r.1, r.2.1 + 1, r.2.2.1,
        ("Failed to " ++ c.action ++ " " ++ c.role ++ ": " ++ e) :: r.2.2.2.1,
        r.2.2.2.2)

/-- `RbacSyncService.sync_namespace`: compute the preview; fail fast with
its errors when it cannot proceed; report an informational success when
dry-running or when there is nothing to change; otherwise run the apply
loop and report counts, with `success` exactly when nothing failed. -/
def sync_namespace (env : Environment) (st : SyncState) (tenant ns : String)
    (direction : Option SyncDirection) (dry_run : Bool) :
    SyncResult × SyncState :=
  let preview := preview_sync env st tenant ns direction
  if !preview.can_proceed then
    (⟨false, 0, 0, [], preview.errors⟩, st)
  else if dry_run || !preview.has_changes then
    (⟨true, 0, 0,
      if dry_run then ["Dry run"] else ["No changes needed"], []⟩, st)
  else
    let r := applyChanges env preview.direction tenant ns preview.changes st
    (⟨r.2.1 == 0, r.1, r.2.1, r.2.2.1, r.2.2.2.1⟩, r.2.2.2.2)

/-! ## Group reconciler (`AuthService._apply_group_role_mappings`,
`app/services/auth.py`) -/

/-- OIDC provider row (`app/models/oidc_provider.py`), restricted to the
fields the reconciler reads. -/
structure OIDCProvider where
  environment_id : Nat
  group_role_mappings : List (String × String)
  default_role_name : Option String
  sync_roles_on_login : Bool
deriving DecidableEq, Repr

/-- The store slice the reconciler touches. -/
structure AuthDb where
  roles : List Role
  user_roles : List UserRole
deriving DecidableEq, Repr

/-- `AuthService._remove_user_roles_for_environment`: delete every
assignment of the user whose role belongs to the environment. -/
def removeUserRolesForEnvironment (db : AuthDb) (uid envId : Nat) : AuthDb :=
  let env_role_ids := (db.roles.filter (fun r => r.environment_id == envId)).map (fun r => r.id)
  if env_role_ids.isEmpty then db
  else
    { db with
      user_roles := db.user_roles.filter (fun ur =>
        !(ur.user_id == uid && env_role_ids.contains ur.role_id)) }

/-- `AuthService._apply_group_role_mappings`: map the login groups to target
role names (plus the provider's non-empty default role name, Python
truthiness); resolve them to roles of the provider's environment; add the
missing assignments; remove assignments outside the target set only when
`sync_roles_on_login` is set; with an empty target set, remove all of the
user's environment assignments only when `sync_roles_on_login` is set. -/
def apply_group_role_mappings (db : AuthDb) (uid : Nat) (groups : List String)
    (provider : Option OIDCProvider) : AuthDb :=
  match provider with
  | none => db
  | some p =>
    if p.group_role_mappings.isEmpty then db
    else
      let mapped := groups.filterMap (fun g => List.lookup g p.group_role_mappings)
      let target_role_names :=
        match p.default_role_name with
        | some d => if d.isEmpty then mapped else mapped ++ [d]
        | none => mapped
      if target_role_names.isEmpty then
        if p.sync_roles_on_login then
          removeUserRolesForEnvironment db uid p.environment_id
        else db
      else
        let target_roles := db.roles.filter (fun r =>
          r.environment_id == p.environment_id && target_role_names.contains r.name)
        let current := db.user_roles.filter (fun ur =>
          ur.user_id == uid && db.roles.any (fun r =>
            r.id == ur.role_id && r.environment_id == p.environment_id))
        let current_ids := current.map (fun ur => ur.role_id)
        let added : List UserRole := target_roles.filterMap (fun r =>
          if current_ids.contains r.id then none else some ⟨uid, r.id, none⟩)
        let db1 : AuthDb := { db with user_roles := db.user_roles ++ added }
        if p.sync_roles_on_login then
          let target_ids := target_roles.map (fun r => r.id)
          { db1 with
            user_roles := db1.user_roles.filter (fun ur =>
              !(current.contains ur && !target_ids.contains ur.role_id)) }
        else db1

/-! ## Helper lemmas -/

/-- Truncating a list to another list's length and agreeing with it is the
same as extending it. -/
theorem take_length_eq_iff_append {α} [DecidableEq α] (s : List α) :
    ∀ l : List α, l.take s.length = s ↔ ∃ t, l = s ++ t := by
  induction s with
  | nil => intro l; simp
  | cons a s ih =>
    intro l
    cases l with
    | nil => simp
    | cons b l =>
      simp only [List.length_cons, List.take_succ_cons, List.cons_append,
        List.cons.injEq]
      constructor
      · rintro ⟨rfl, h⟩
        obtain ⟨t, rfl⟩ := (ih l).mp h
        exact ⟨t, rfl, rfl⟩
      · rintro ⟨t, rfl, rfl⟩
        exact ⟨rfl, (ih _).mpr ⟨t, rfl⟩⟩

/-- Two strings are equal exactly when their character lists are. -/
theorem string_toList_inj {s t : String} : s.toList = t.toList ↔ s = t :=
  ⟨fun h => String.ext h, fun h => h ▸ rfl⟩

/-! ## Theorems for the claims -/

/-- C2: `check_permission` matches a resource path against a grant's
resource pattern as follows: a `NULL` or `"*"` pattern matches any path; a
pattern of the form `pre ++ "/*"` matches exactly the paths that extend
`pre` on a path-segment boundary, i.e. the paths of the form
`pre ++ "/" ++ rest`; any other pattern matches only by exact string
equality. -/
theorem matchesPattern_rules (pat path : String) :
    (matchesPattern none path = true ∧ matchesPattern (some "*") path = true) ∧
    (∀ pre : String, pat = pre ++ "/*" →
      (matchesPattern (some pat) path = true ↔
        ∃ rest : String, path = pre ++ "/" ++ rest)) ∧
    (pat ≠ "*" → (¬ ∃ pre : String, pat = pre ++ "/*") →
      (matchesPattern (some pat) path = true ↔ path = pat)) := by
  refine ⟨⟨rfl, ?_⟩, ?_, ?_⟩
  · have h : "*".toList = ['*'] := rfl
    simp [matchesPattern, matchChars, h]
  · rintro pre rfl
    have hdata : (pre ++ "/*").toList = pre.toList ++ ['/', '*'] := by
      simp [String.toList]
    have hne : pre.toList ++ ['/', '*'] ≠ ['*'] := by
      intro h
      have := congrArg List.length h
      simp at this
    have hrev : (pre.toList ++ ['/', '*']).reverse.take 2 = ['*', '/'] := by
      simp
    have hdrop : (pre.toList ++ ['/', '*']).dropLast = pre.toList ++ ['/'] := by
      have : pre.toList ++ ['/', '*'] = (pre.toList ++ ['/']) ++ ['*'] := by simp
      rw [this, List.dropLast_concat]
    simp only [matchesPattern, matchChars, hdata, hne, hrev, if_false, if_pos rfl,
      if_true, beq_iff_eq, hdrop]
    rw [take_length_eq_iff_append]
    constructor
    · rintro ⟨t, ht⟩
      refine ⟨String.mk t, ?_⟩
      apply String.ext
      simpa [String.toList] using ht
    · rintro ⟨rest, rfl⟩
      exact ⟨rest.toList, by simp [String.toList]⟩
  · intro hstar hform
    have h1 : pat.toList ≠ ['*'] := by
      intro h
      exact hstar (string_toList_inj.mp (h.trans rfl))
    have h2 : pat.toList.reverse.take 2 ≠ ['*', '/'] := by
      intro h
      rcases hrev : pat.toList.reverse with _ | ⟨a, _ | ⟨b, r⟩⟩
      · rw [hrev] at h; simp at h
      · rw [hrev] at h; simp at h
      · rw [hrev] at h
        simp only [List.take_succ_cons, List.take_zero, List.cons.injEq,
          and_true] at h
        obtain ⟨rfl, rfl, -⟩ := h
        apply hform
        refine ⟨String.mk r.reverse, ?_⟩
        apply String.ext
        have : pat.toList = r.reverse ++ ['/', '*'] := by
          have := congrArg List.reverse hrev
          simpa using this
        simpa [String.toList] using this
    simp only [matchesPattern, matchChars, h1, h2, if_false, beq_iff_eq]
    exact ⟨fun h => string_toList_inj.mp h, fun h => h ▸ rfl⟩

/-- Witness for C2: the segment-boundary rule applied at
pattern `"tenantA/*"` and path `"tenantA/ns1"`. -/
theorem matchesPattern_rules_witness :
    matchesPattern (some "tenantA/*") "tenantA/ns1" = true :=
  ((matchesPattern_rules "tenantA/*" "tenantA/ns1").2.1 "tenantA"
    (by decide)).mpr ⟨"ns1", by decide⟩

/-- C1: a user with the global-admin flag, and likewise a user holding the
`superuser` role in at least one environment, is allowed by
`check_permission` for every environment, action, resource level and
resource path, regardless of the role assignments in the queried
environment. -/
theorem check_permission_superuser_allows (db : Db) (uid eid : Nat)
    (action level : String) (path : Option String)
    (h : (∃ u, findUser db uid = some u ∧ u.is_global_admin = true) ∨
         (∃ ur ∈ db.user_roles, ur.user_id = uid ∧
            ∃ r ∈ db.roles, r.id = ur.role_id ∧ r.name = "superuser")) :
    check_permission db uid eid action level path = some true := by
  have hs : has_superuser_access db uid = true := by
    rcases h with ⟨u, hu, ha⟩ | ⟨ur, hur, huid, r, hr, hid, hname⟩
    · simp [has_superuser_access, hu, ha]
    · have hrole : has_role_by_name_any_environment db uid "superuser" = true := by
        simp only [has_role_by_name_any_environment, List.any_eq_true]
        refine ⟨ur, hur, ?_⟩
        simp only [huid, beq_self_eq_true, Bool.true_and, List.any_eq_true]
        exact ⟨r, hr, by simp [hid, hname]⟩
      simp [has_superuser_access, hrole]
  simp [check_permission, hs]

/-- Witness for C1: a lone global admin is allowed. -/
theorem check_permission_superuser_allows_witness :
    check_permission ⟨[⟨1, true⟩], [], [], [], []⟩ 1 5 "produce" "topic" none =
      some true :=
  check_permission_superuser_allows ⟨[⟨1, true⟩], [], [], [], []⟩ 1 5
    "produce" "topic" none (Or.inl ⟨⟨1, true⟩, by decide, rfl⟩)

/-- C8: in an environment with `rbac_enabled = false`, `check_permission`
allows every user, action, resource level and resource path. -/
theorem check_permission_rbac_disabled_allows (db : Db) (uid eid : Nat)
    (action level : String) (path : Option String) (env : Environment)
    (henv : findEnv db eid = some env) (hd : env.rbac_enabled = false) :
    check_permission db uid eid action level path = some true := by
  have hrb : is_rbac_enabled db eid = false := by
    simp [is_rbac_enabled, henv, hd]
  cases hsv : has_superuser_access db uid <;>
    simp [check_permission, hsv, hrb]

/-- Witness for C8: a user with no roles is allowed in an RBAC-disabled
environment. -/
theorem check_permission_rbac_disabled_allows_witness :
    check_permission ⟨[⟨2, false⟩], [], [], [], [⟨7, false, .console_only⟩]⟩
      2 7 "consume" "namespace" (some "t/ns") = some true :=
  check_permission_rbac_disabled_allows
    ⟨[⟨2, false⟩], [], [], [], [⟨7, false, .console_only⟩]⟩
    2 7 "consume" "namespace" (some "t/ns")
    ⟨7, false, .console_only⟩ (by decide) rfl

/-- C9: an environment id with no stored environment row makes
`is_rbac_enabled` return false, so `check_permission` allows every action,
resource level and resource path for every user. -/
theorem check_permission_missing_env_allows (db : Db) (uid eid : Nat)
    (action level : String) (path : Option String)
    (henv : findEnv db eid = none) :
    is_rbac_enabled db eid = false ∧
    check_permission db uid eid action level path = some true := by
  have hrb : is_rbac_enabled db eid = false := by
    simp [is_rbac_enabled, henv]
  refine ⟨hrb, ?_⟩
  cases hsv : has_superuser_access db uid <;>
    simp [check_permission, hsv, hrb]

/-- Witness for C9: no environments are stored at all. -/
theorem check_permission_missing_env_allows_witness :
    is_rbac_enabled ⟨[⟨3, false⟩], [], [], [], []⟩ 9 = false ∧
    check_permission ⟨[⟨3, false⟩], [], [], [], []⟩ 3 9 "admin" "cluster" none =
      some true :=
  check_permission_missing_env_allows ⟨[⟨3, false⟩], [], [], [], []⟩ 3 9
    "admin" "cluster" none (by decide)

/-- C7: with `sync_roles_on_login = false`, login-time group reconciliation
never removes an existing assignment: every pre-existing user-role row is
still present afterwards, even when the user's groups no longer map to the
assigned role and even when the computed target role set is empty. -/
theorem apply_group_role_mappings_only_adds (db : AuthDb) (uid : Nat)
    (groups : List String) (provider : Option OIDCProvider)
    (h : ∀ p, provider = some p → p.sync_roles_on_login = false) :
    ∀ ur ∈ db.user_roles,
      ur ∈ (apply_group_role_mappings db uid groups provider).user_roles := by
  intro ur hur
  cases provider with
  | none => simpa [apply_group_role_mappings] using hur
  | some p =>
    have hp : p.sync_roles_on_login = false := h p rfl
    simp only [apply_group_role_mappings, hp, Bool.false_eq_true, if_false]
    split
    · exact hur
    · split
      · exact hur
      · exact List.mem_append_left _ hur

/-- Witness for C7: a user keeps a role its groups no longer map to. -/
theorem apply_group_role_mappings_only_adds_witness :
    (⟨5, 1, none⟩ : UserRole) ∈
      (apply_group_role_mappings ⟨[⟨1, 10, "dev", false⟩], [⟨5, 1, none⟩]⟩
        5 [] (some ⟨10, [("g", "other")], none, false⟩)).user_roles :=
  apply_group_role_mappings_only_adds ⟨[⟨1, 10, "dev", false⟩], [⟨5, 1, none⟩]⟩
    5 [] (some ⟨10, [("g", "other")], none, false⟩)
    (by intro p hp; cases hp; rfl) ⟨5, 1, none⟩ (by decide)

/-- A successful association-list lookup comes from an entry of the list. -/
theorem mem_of_lookup_eq_some {β} {r : String} {a : β} :
    ∀ {l : List (String × β)}, List.lookup r l = some a → (r, a) ∈ l := by
  intro l
  induction l with
  | nil => intro h; simp [List.lookup] at h
  | cons e t ih =>
    obtain ⟨k, v⟩ := e
    intro h
    rw [List.lookup] at h
    cases hk : r == k with
    | true =>
      rw [hk] at h
      obtain rfl : v = a := by simpa using h
      obtain rfl : r = k := by simpa using hk
      exact List.mem_cons_self _ _
    | false =>
      rw [hk] at h
      exact List.mem_cons_of_mem _ (ih h)

/-- A lookup misses exactly when no entry has the key. -/
theorem lookup_eq_none_iff {β} {r : String} :
    ∀ {l : List (String × β)},
      List.lookup r l = none ↔ ∀ a : β, (r, a) ∉ l := by
  intro l
  induction l with
  | nil => simp [List.lookup]
  | cons e t ih =>
    obtain ⟨k, v⟩ := e
    rw [List.lookup]
    cases hk : r == k with
    | true =>
      obtain rfl : r = k := by simpa using hk
      constructor
      · intro h; simp at h
      · intro h; exact absurd (List.mem_cons_self _ _) (h v)
    | false =>
      have hne : r ≠ k := by simpa using hk
      simp only [ih, List.mem_cons, Prod.mk.injEq]
      constructor
      · intro h a hc
        rcases hc with hc | hc
        · exact hne hc.1
        · exact h a hc
      · intro h a hc
        exact h a (Or.inr hc)

/-- With duplicate-free keys, membership determines the lookup result. -/
theorem lookup_eq_some_of_mem_nodup {β} {r : String} {a : β} :
    ∀ {l : List (String × β)}, (l.map Prod.fst).Nodup →
      (r, a) ∈ l → List.lookup r l = some a := by
  intro l
  induction l with
  | nil => intro _ h; simp at h
  | cons e t ih =>
    obtain ⟨k, v⟩ := e
    intro hnd hm
    rw [List.map_cons, List.nodup_cons] at hnd
    rw [List.lookup]
    rcases List.mem_cons.mp hm with hc | hc
    · obtain ⟨rfl, rfl⟩ := Prod.mk.injEq .. ▸ hc
      simp
    · cases hk : r == k with
      | true =>
        obtain rfl : r = k := by simpa using hk
        exact absurd (List.mem_map_of_mem Prod.fst hc) hnd.1
      | false => exact ih hnd.2 hc

/-- A lookup succeeds exactly when some entry has the key. -/
theorem lookup_isSome_iff {β} {r : String} {l : List (String × β)} :
    (List.lookup r l).isSome = true ↔ ∃ a : β, (r, a) ∈ l := by
  cases hl : List.lookup r l with
  | none =>
    simp only [Option.isSome_none, Bool.false_eq_true, false_iff]
    rintro ⟨a, ha⟩
    exact lookup_eq_none_iff.mp hl a ha
  | some a =>
    simp only [Option.isSome_some, true_iff]
    exact ⟨a, mem_of_lookup_eq_some hl⟩

/-- `sameSet` decides mutual membership of the two action lists. -/
theorem sameSet_iff {a b : List String} :
    sameSet a b = true ↔ ∀ x, x ∈ a ↔ x ∈ b := by
  simp only [sameSet, Bool.and_eq_true, List.all_eq_true, List.contains]
  constructor
  · rintro ⟨h1, h2⟩ x
    exact ⟨fun hx => List.elem_iff.mp (h1 x hx),
      fun hx => List.elem_iff.mp (h2 x hx)⟩
  · intro h
    exact ⟨fun x hx => List.elem_iff.mpr ((h x).mp hx),
      fun x hx => List.elem_iff.mpr ((h x).mpr hx)⟩

/-- The `only_in_console` bucket holds a key exactly when the console map
has it and the pulsar map does not. -/
theorem only_in_console_any_iff (console pulsar : List (String × List String))
    (r : String) :
    (diffMaps console pulsar).only_in_console.any (fun x => x.1 == r) = true ↔
      (∃ a, (r, a) ∈ console) ∧ List.lookup r pulsar = none := by
  simp only [diffMaps, List.any_eq_true, List.mem_filterMap]
  constructor
  · rintro ⟨y, ⟨⟨x1, x2⟩, hx, hfx⟩, hy⟩
    cases hlx : List.lookup x1 pulsar with
    | none =>
      rw [hlx] at hfx
      obtain rfl : ((x1, x2) : String × List String) = y := by simpa using hfx
      obtain rfl : x1 = r := by simpa using hy
      exact ⟨⟨x2, hx⟩, hlx⟩
    | some pb => rw [hlx] at hfx; simp at hfx
  · rintro ⟨⟨a, ha⟩, hnone⟩
    exact ⟨(r, a), ⟨(r, a), ha, by simp [hnone]⟩, by simp⟩

/-- The `only_in_pulsar` bucket holds a key exactly when the pulsar map has
it and the console map does not. -/
theorem only_in_pulsar_any_iff (console pulsar : List (String × List String))
    (r : String) :
    (diffMaps console pulsar).only_in_pulsar.any (fun x => x.1 == r) = true ↔
      (∃ a, (r, a) ∈ pulsar) ∧ ∀ a, (r, a) ∉ console := by
  simp only [diffMaps, List.any_eq_true, List.mem_filter]
  constructor
  · rintro ⟨⟨y1, y2⟩, ⟨hy, hpred⟩, hyr⟩
    obtain rfl : r = y1 := (by simpa using hyr : y1 = r).symm
    refine ⟨⟨y2, hy⟩, ?_⟩
    intro a hc
    rw [Bool.not_eq_eq_eq_not, Bool.not_true, List.any_eq_false] at hpred
    exact absurd (by simp : (((r, a) : String × List String).1 == r) = true)
      (by simpa using hpred (r, a) hc)
  · rintro ⟨⟨a, ha⟩, hnc⟩
    refine ⟨(r, a), ⟨ha, ?_⟩, by simp⟩
    rw [Bool.not_eq_eq_eq_not, Bool.not_true, List.any_eq_false]
    rintro ⟨x1, x2⟩ hx
    simp only [Bool.not_eq_true, beq_eq_false_iff_ne, ne_eq]
    intro hxr
    exact hnc x2 (hxr ▸ hx)

/-- Membership in the `different` bucket, characterized entrywise. -/
theorem different_mem_iff (console pulsar : List (String × List String))
    (r : String) (ca pa : List String) :
    (r, ca, pa) ∈ (diffMaps console pulsar).different ↔
      ((r, ca) ∈ console ∧ List.lookup r pulsar = some pa ∧
        sameSet ca pa = false) := by
  simp only [diffMaps, List.mem_filterMap]
  constructor
  · rintro ⟨⟨x1, x2⟩, hx, hfx⟩
    cases hlx : List.lookup x1 pulsar with
    | none =>
      rw [hlx] at hfx
      exact absurd hfx (by simp)
    | some pb =>
      rw [hlx] at hfx
      have hfx' : (if sameSet x2 pb = true then none
          else some (x1, x2, pb)) = some (r, ca, pa) := hfx
      cases hs : sameSet x2 pb with
      | true => rw [hs] at hfx'; simp at hfx'
      | false =>
        rw [hs] at hfx'
        obtain ⟨h1, h2, h3⟩ :
            x1 = r ∧ x2 = ca ∧ pb = pa := by simpa using hfx'
        subst h1; subst h2; subst h3
        exact ⟨hx, hlx, hs⟩
  · rintro ⟨hmem, hlook, hss⟩
    refine ⟨(r, ca), hmem, ?_⟩
    have : (if sameSet ca pa = true then none
        else some (r, ca, pa)) = some (r, ca, pa) := by simp [hss]
    rw [show List.lookup (r, ca).1 pulsar = some pa from hlook]
    exact this

/-- The `different` bucket holds a key exactly when both sides have it with
set-differing action lists (console keys duplicate-free). -/
theorem different_any_iff (console pulsar : List (String × List String))
    (hc : (console.map Prod.fst).Nodup) (r : String) :
    (diffMaps console pulsar).different.any (fun x => x.1 == r) = true ↔
      ∃ ca pa, List.lookup r console = some ca ∧
        List.lookup r pulsar = some pa ∧ sameSet ca pa = false := by
  constructor
  · intro h
    obtain ⟨⟨y1, y2, y3⟩, hy, hyr⟩ := List.any_eq_true.mp h
    obtain rfl : y1 = r := by simpa using hyr
    obtain ⟨hmem, hlook, hss⟩ := (different_mem_iff console pulsar y1 y2 y3).mp hy
    exact ⟨y2, y3, lookup_eq_some_of_mem_nodup hc hmem, hlook, hss⟩
  · rintro ⟨ca, pa, h1, h2, h3⟩
    refine List.any_eq_true.mpr ⟨(r, ca, pa), ?_, by simp⟩
    exact (different_mem_iff console pulsar r ca pa).mpr
      ⟨mem_of_lookup_eq_some h1, h2, h3⟩

/-- The `same` bucket holds a key exactly when both sides have it with
set-equal action lists (console keys duplicate-free). -/
theorem same_any_iff (console pulsar : List (String × List String))
    (hc : (console.map Prod.fst).Nodup) (r : String) :
    (diffMaps console pulsar).same.any (fun x => x.1 == r) = true ↔
      ∃ ca pa, List.lookup r console = some ca ∧
        List.lookup r pulsar = some pa ∧ sameSet ca pa = true := by
  simp only [diffMaps, List.any_eq_true, List.mem_filterMap]
  constructor
  · rintro ⟨⟨y1, y2⟩, ⟨⟨x1, x2⟩, hx, hfx⟩, hyr⟩
    cases hlx : List.lookup x1 pulsar with
    | none =>
      rw [hlx] at hfx
      exact absurd hfx (by simp)
    | some pb =>
      rw [hlx] at hfx
      have hfx' : (if sameSet x2 pb = true then some (x1, x2)
          else none) = some (y1, y2) := hfx
      cases hs : sameSet x2 pb with
      | false => rw [hs] at hfx'; simp at hfx'
      | true =>
        rw [hs] at hfx'
        obtain ⟨h1, h2⟩ : x1 = y1 ∧ x2 = y2 := by simpa using hfx'
        subst h1; subst h2
        obtain rfl : r = x1 := (by simpa using hyr : x1 = r).symm
        exact ⟨x2, pb, lookup_eq_some_of_mem_nodup hc hx, hlx, hs⟩
  · rintro ⟨ca, pa, h1, h2, h3⟩
    refine ⟨(r, ca), ⟨(r, ca), mem_of_lookup_eq_some h1, ?_⟩, by simp⟩
    have : (if sameSet ca pa = true then some ((r : String), ca)
        else none) = some (r, ca) := by simp [h3]
    rw [show List.lookup (r, ca).1 pulsar = some pa from h2]
    exact this

/-- C5: for the two permission maps read by `get_diff` (console and pulsar
`role ↦ actions`, keys duplicate-free as Python dict keys are), every role
appearing in either map lands in exactly one of the four buckets; a role is
in `different` exactly when both sides have it with action sets that differ
as sets, and the entry carries both sides' action lists; the totals are the
two map sizes. -/
theorem diffMaps_partition (console pulsar : List (String × List String))
    (hc : (console.map Prod.fst).Nodup) (hp : (pulsar.map Prod.fst).Nodup) :
    ((diffMaps console pulsar).total_console = console.length ∧
     (diffMaps console pulsar).total_pulsar = pulsar.length) ∧
    (∀ r ca pa, ((r, ca, pa) ∈ (diffMaps console pulsar).different ↔
       ((r, ca) ∈ console ∧ (r, pa) ∈ pulsar ∧ ¬ ∀ x, x ∈ ca ↔ x ∈ pa))) ∧
    (∀ r, ((∃ a, (r, a) ∈ console) ∨ (∃ a, (r, a) ∈ pulsar)) →
      ((diffMaps console pulsar).only_in_console.any (fun x => x.1 == r)).toNat +
      ((diffMaps console pulsar).only_in_pulsar.any (fun x => x.1 == r)).toNat +
      ((diffMaps console pulsar).different.any (fun x => x.1 == r)).toNat +
      ((diffMaps console pulsar).same.any (fun x => x.1 == r)).toNat = 1) := by
  refine ⟨⟨rfl, rfl⟩, ?_, ?_⟩
  · intro r ca pa
    rw [different_mem_iff]
    constructor
    · rintro ⟨h1, h2, h3⟩
      refine ⟨h1, mem_of_lookup_eq_some h2, ?_⟩
      intro hss
      rw [← sameSet_iff] at hss
      rw [h3] at hss
      exact Bool.false_ne_true hss
    · rintro ⟨h1, h2, h3⟩
      refine ⟨h1, lookup_eq_some_of_mem_nodup hp h2, ?_⟩
      cases hs : sameSet ca pa with
      | false => rfl
      | true => exact absurd (sameSet_iff.mp hs) h3
  · intro r hr
    cases hlc : List.lookup r console with
    | none =>
      have hnc : ∀ a, (r, a) ∉ console := lookup_eq_none_iff.mp hlc
      have hrp : ∃ a, (r, a) ∈ pulsar := by
        rcases hr with ⟨a, ha⟩ | h
        · exact absurd ha (hnc a)
        · exact h
      have b1 : (diffMaps console pulsar).only_in_console.any
          (fun x => x.1 == r) = false := by
        apply Bool.eq_false_iff.mpr
        intro hb
        obtain ⟨⟨a, ha⟩, -⟩ := (only_in_console_any_iff console pulsar r).mp hb
        exact hnc a ha
      have b2 : (diffMaps console pulsar).only_in_pulsar.any
          (fun x => x.1 == r) = true :=
        (only_in_pulsar_any_iff console pulsar r).mpr ⟨hrp, hnc⟩
      have b3 : (diffMaps console pulsar).different.any
          (fun x => x.1 == r) = false := by
        apply Bool.eq_false_iff.mpr
        intro hb
        obtain ⟨ca, pa, h1, -, -⟩ := (different_any_iff console pulsar hc r).mp hb
        rw [hlc] at h1
        exact Option.noConfusion h1
      have b4 : (diffMaps console pulsar).same.any
          (fun x => x.1 == r) = false := by
        apply Bool.eq_false_iff.mpr
        intro hb
        obtain ⟨ca, pa, h1, -, -⟩ := (same_any_iff console pulsar hc r).mp hb
        rw [hlc] at h1
        exact Option.noConfusion h1
      rw [b1, b2, b3, b4]
      rfl
    | some ca =>
      have hmc : (r, ca) ∈ console := mem_of_lookup_eq_some hlc
      have b2 : (diffMaps console pulsar).only_in_pulsar.any
          (fun x => x.1 == r) = false := by
        apply Bool.eq_false_iff.mpr
        intro hb
        obtain ⟨-, hnc⟩ := (only_in_pulsar_any_iff console pulsar r).mp hb
        exact hnc ca hmc
      cases hlp : List.lookup r pulsar with
      | none =>
        have b1 : (diffMaps console pulsar).only_in_console.any
            (fun x => x.1 == r) = true :=
          (only_in_console_any_iff console pulsar r).mpr ⟨⟨ca, hmc⟩, hlp⟩
        have b3 : (diffMaps console pulsar).different.any
            (fun x => x.1 == r) = false := by
          apply Bool.eq_false_iff.mpr
          intro hb
          obtain ⟨ca', pa, -, h2, -⟩ :=
            (different_any_iff console pulsar hc r).mp hb
          rw [hlp] at h2
          exact Option.noConfusion h2
        have b4 : (diffMaps console pulsar).same.any
            (fun x => x.1 == r) = false := by
          apply Bool.eq_false_iff.mpr
          intro hb
          obtain ⟨ca', pa, -, h2, -⟩ :=
            (same_any_iff console pulsar hc r).mp hb
          rw [hlp] at h2
          exact Option.noConfusion h2
        rw [b1, b2, b3, b4]
        rfl
      | some pa =>
        have b1 : (diffMaps console pulsar).only_in_console.any
            (fun x => x.1 == r) = false := by
          apply Bool.eq_false_iff.mpr
          intro hb
          obtain ⟨-, hn⟩ := (only_in_console_any_iff console pulsar r).mp hb
          rw [hlp] at hn
          exact Option.noConfusion hn
        cases hs : sameSet ca pa with
        | true =>
          have b4 : (diffMaps console pulsar).same.any
              (fun x => x.1 == r) = true :=
            (same_any_iff console pulsar hc r).mpr ⟨ca, pa, hlc, hlp, hs⟩
          have b3 : (diffMaps console pulsar).different.any
              (fun x => x.1 == r) = false := by
            apply Bool.eq_false_iff.mpr
            intro hb
            obtain ⟨ca', pa', h1, h2, h3⟩ :=
              (different_any_iff console pulsar hc r).mp hb
            rw [hlc] at h1
            rw [hlp] at h2
            obtain rfl := Option.some.inj h1
            obtain rfl := Option.some.inj h2
            rw [hs] at h3
            exact Bool.false_ne_true h3.symm
          rw [b1, b2, b3, b4]
          rfl
        | false =>
          have b3 : (diffMaps console pulsar).different.any
              (fun x => x.1 == r) = true :=
            (different_any_iff console pulsar hc r).mpr ⟨ca, pa, hlc, hlp, hs⟩
          have b4 : (diffMaps console pulsar).same.any
              (fun x => x.1 == r) = false := by
            apply Bool.eq_false_iff.mpr
            intro hb
            obtain ⟨ca', pa', h1, h2, h3⟩ :=
              (same_any_iff console pulsar hc r).mp hb
            rw [hlc] at h1
            rw [hlp] at h2
            obtain rfl := Option.some.inj h1
            obtain rfl := Option.some.inj h2
            rw [hs] at h3
            exact Bool.false_ne_true h3
          rw [b1, b2, b3, b4]
          rfl

/-- Witness for C5: a two-role console map against a two-role pulsar map,
checked for the role present on both sides with differing action sets. -/
theorem diffMaps_partition_witness :
    ((diffMaps [("viewer", ["read"])] [("viewer", ["produce"]), ("ops", ["consume"])]).different.any
      (fun x => x.1 == "viewer")).toNat = 1 ∧
    ("viewer", ["read"], ["produce"]) ∈
      (diffMaps [("viewer", ["read"])] [("viewer", ["produce"]), ("ops", ["consume"])]).different := by
  have h := diffMaps_partition [("viewer", ["read"])]
    [("viewer", ["produce"]), ("ops", ["consume"])] (by decide) (by decide)
  refine ⟨?_, ?_⟩
  · have hcount := h.2.2 "viewer" (Or.inl ⟨["read"], by decide⟩)
    have hoc : ((diffMaps [("viewer", ["read"])]
        [("viewer", ["produce"]), ("ops", ["consume"])]).only_in_console.any
        (fun x => x.1 == "viewer")).toNat = 0 := by decide
    have hop : ((diffMaps [("viewer", ["read"])]
        [("viewer", ["produce"]), ("ops", ["consume"])]).only_in_pulsar.any
        (fun x => x.1 == "viewer")).toNat = 0 := by decide
    have hsm : ((diffMaps [("viewer", ["read"])]
        [("viewer", ["produce"]), ("ops", ["consume"])]).same.any
        (fun x => x.1 == "viewer")).toNat = 0 := by decide
    omega
  · exact (h.2.1 "viewer" ["read"] ["produce"]).mpr
      ⟨by decide, by decide, by
        intro hx
        have := (hx "read").mp (by decide)
        simp at this⟩

/-- The apply loop attempts every change: the applied and failed counts sum
to the number of changes, with one detail line per applied change and one
error line per failed change, whatever the state in which it starts. -/
theorem applyChanges_counts (env : Environment) (dir : SyncDirection)
    (tenant ns : String) :
    ∀ (cs : List SyncChange) (st : SyncState),
      (applyChanges env dir tenant ns cs st).1 +
        (applyChanges env dir tenant ns cs st).2.1 = cs.length ∧
      (applyChanges env dir tenant ns cs st).2.2.1.length =
        (applyChanges env dir tenant ns cs st).1 ∧
      (applyChanges env dir tenant ns cs st).2.2.2.1.length =
        (applyChanges env dir tenant ns cs st).2.1 := by
  intro cs
  induction cs with
  | nil => intro st; simp [applyChanges]
  | cons c cs ih =>
    intro st
    rw [applyChanges]
    cases hap : applyOne env dir st c tenant ns with
    | ok st' =>
      obtain ⟨h1, h2, h3⟩ := ih st'
      simp only [List.length_cons]
      refine ⟨by omega, by simp [h2], by simp [h3]⟩
    | error e =>
      obtain ⟨h1, h2, h3⟩ := ih st
      simp only [List.length_cons]
      refine ⟨by omega, by simp [h2], by simp [h3]⟩

/-- C3: when `sync_namespace` proceeds to apply a non-empty change list
(`can_proceed` and `has_changes`, not a dry run), every change in the
preview is attempted: applied plus failed counts equal the number of
previewed changes, each failure contributes an error line and each success
a detail line, and the result succeeds exactly when no change failed. -/
theorem sync_namespace_attempts_every_change (env : Environment)
    (st : SyncState) (tenant ns : String) (direction : Option SyncDirection)
    (hcp : (preview_sync env st tenant ns direction).can_proceed = true)
    (hch : (preview_sync env st tenant ns direction).has_changes = true) :
    (sync_namespace env st tenant ns direction false).1.changes_applied +
      (sync_namespace env st tenant ns direction false).1.changes_failed =
      (preview_sync env st tenant ns direction).changes.length ∧
    (sync_namespace env st tenant ns direction false).1.details.length =
      (sync_namespace env st tenant ns direction false).1.changes_applied ∧
    (sync_namespace env st tenant ns direction false).1.errors.length =
      (sync_namespace env st tenant ns direction false).1.changes_failed ∧
    ((sync_namespace env st tenant ns direction false).1.success = true ↔
      (sync_namespace env st tenant ns direction false).1.changes_failed = 0) := by
  obtain ⟨h1, h2, h3⟩ := applyChanges_counts env
    (preview_sync env st tenant ns direction).direction tenant ns
    (preview_sync env st tenant ns direction).changes st
  simp only [sync_namespace, hcp, hch, Bool.not_true, Bool.false_eq_true,
    if_false, Bool.or_self]
  exact ⟨h1, h2, h3, by simp [Nat.beq_eq]⟩

/-- Witness for C3: two console-only roles are pushed to Pulsar; the
`viewer ↦ read` grant is rejected by the broker-action validation while the
`writer ↦ produce` grant succeeds, and both were attempted. -/
theorem sync_namespace_attempts_every_change_witness :
    (sync_namespace ⟨10, true, .sync_to_pulsar⟩
        ⟨[⟨1, 10, "viewer", false⟩, ⟨2, 10, "writer", false⟩],
         [⟨1, .read, .namespace, "tenantA/ns1"⟩,
          ⟨2, .produce, .namespace, "tenantA/ns1"⟩], [], 3⟩
        "tenantA" "ns1" none false).1.changes_applied +
      (sync_namespace ⟨10, true, .sync_to_pulsar⟩
        ⟨[⟨1, 10, "viewer", false⟩, ⟨2, 10, "writer", false⟩],
         [⟨1, .read, .namespace, "tenantA/ns1"⟩,
          ⟨2, .produce, .namespace, "tenantA/ns1"⟩], [], 3⟩
        "tenantA" "ns1" none false).1.changes_failed =
      (preview_sync ⟨10, true, .sync_to_pulsar⟩
        ⟨[⟨1, 10, "viewer", false⟩, ⟨2, 10, "writer", false⟩],
         [⟨1, .read, .namespace, "tenantA/ns1"⟩,
          ⟨2, .produce, .namespace, "tenantA/ns1"⟩], [], 3⟩
        "tenantA" "ns1" none).changes.length :=
  (sync_namespace_attempts_every_change ⟨10, true, .sync_to_pulsar⟩
    ⟨[⟨1, 10, "viewer", false⟩, ⟨2, 10, "writer", false⟩],
     [⟨1, .read, .namespace, "tenantA/ns1"⟩,
      ⟨2, .produce, .namespace, "tenantA/ns1"⟩], [], 3⟩
    "tenantA" "ns1" none (by decide) (by decide)).1

/-- C6: when the preview cannot proceed, `sync_namespace` fails with the
preview's errors and zero counts; when it can proceed but the call is a dry
run or the preview has no changes, it succeeds with zero counts; in all
these cases neither the Console store nor the broker store is mutated. -/
theorem sync_namespace_no_mutation (env : Environment) (st : SyncState)
    (tenant ns : String) (direction : Option SyncDirection) (dry_run : Bool)
    (h : (preview_sync env st tenant ns direction).can_proceed = false ∨
         dry_run = true ∨
         (preview_sync env st tenant ns direction).has_changes = false) :
    (sync_namespace env st tenant ns direction dry_run).2 = st ∧
    ((preview_sync env st tenant ns direction).can_proceed = false →
      (sync_namespace env st tenant ns direction dry_run).1 =
        ⟨false, 0, 0, [], (preview_sync env st tenant ns direction).errors⟩) ∧
    ((preview_sync env st tenant ns direction).can_proceed = true →
      (sync_namespace env st tenant ns direction dry_run).1.success = true ∧
      (sync_namespace env st tenant ns direction dry_run).1.changes_applied = 0 ∧
      (sync_namespace env st tenant ns direction dry_run).1.changes_failed = 0) := by
  cases hcp : (preview_sync env st tenant ns direction).can_proceed with
  | false =>
    refine ⟨?_, fun _ => ?_, fun hcontra => ?_⟩
    · simp [sync_namespace, hcp]
    · simp [sync_namespace, hcp]
    · exact absurd hcontra Bool.false_ne_true
  | true =>
    have hdn : dry_run = true ∨
        (preview_sync env st tenant ns direction).has_changes = false := by
      rcases h with h | h | h
      · rw [hcp] at h
        exact absurd h.symm Bool.false_ne_true
      · exact Or.inl h
      · exact Or.inr h
    have hbr : (dry_run || !(preview_sync env st tenant ns direction).has_changes)
        = true := by
      rcases hdn with h' | h' <;> simp [h']
    refine ⟨?_, fun hcontra => ?_, fun _ => ?_⟩
    · simp [sync_namespace, hcp, hbr]
    · exact absurd hcontra.symm Bool.false_ne_true
    · simp [sync_namespace, hcp, hbr]

/-- Witness for C6: an environment whose sync mode is `console_only` and no
explicit direction — the preview reports the sync-disabled error, the sync
fails with that error list, and the state is untouched. -/
theorem sync_namespace_no_mutation_witness :
    (sync_namespace ⟨10, true, .console_only⟩
      ⟨[⟨1, 10, "viewer", false⟩], [⟨1, .produce, .namespace, "t/n"⟩], [], 2⟩
      "t" "n" none false).2 =
      ⟨[⟨1, 10, "viewer", false⟩], [⟨1, .produce, .namespace, "t/n"⟩], [], 2⟩ ∧
    (sync_namespace ⟨10, true, .console_only⟩
      ⟨[⟨1, 10, "viewer", false⟩], [⟨1, .produce, .namespace, "t/n"⟩], [], 2⟩
      "t" "n" none false).1 =
      ⟨false, 0, 0, [],
        (preview_sync ⟨10, true, .console_only⟩
          ⟨[⟨1, 10, "viewer", false⟩], [⟨1, .produce, .namespace, "t/n"⟩], [], 2⟩
          "t" "n" none).errors⟩ :=
  ⟨(sync_namespace_no_mutation ⟨10, true, .console_only⟩
      ⟨[⟨1, 10, "viewer", false⟩], [⟨1, .produce, .namespace, "t/n"⟩], [], 2⟩
      "t" "n" none false (Or.inl (by decide))).1,
   (sync_namespace_no_mutation ⟨10, true, .console_only⟩
      ⟨[⟨1, 10, "viewer", false⟩], [⟨1, .produce, .namespace, "t/n"⟩], [], 2⟩
      "t" "n" none false (Or.inl (by decide))).2.1 (by decide)⟩

/-- C4 (counterexample): with the Console holding exactly one
namespace-level grant `viewer ↦ ["read"]` on `tenantA/ns1` and the broker
holding nothing, `sync_namespace` with `dry_run = false` does not return
`changes_applied = 1` and `changes_failed = 0`: the broker grant rejects
the action `"read"` (not in Pulsar's namespace-action vocabulary), so the
single change fails. -/
theorem sync_read_scenario_counterexample :
    ¬ ((sync_namespace ⟨10, true, .sync_to_pulsar⟩
          ⟨[⟨1, 10, "viewer", false⟩], [⟨1, .read, .namespace, "tenantA/ns1"⟩],
            [], 2⟩
          "tenantA" "ns1" (some .console_to_pulsar) false).1.changes_applied = 1 ∧
       (sync_namespace ⟨10, true, .sync_to_pulsar⟩
          ⟨[⟨1, 10, "viewer", false⟩], [⟨1, .read, .namespace, "tenantA/ns1"⟩],
            [], 2⟩
          "tenantA" "ns1" (some .console_to_pulsar) false).1.changes_failed = 0) := by
  decide

/-- C4 (amended): in that state, `get_diff` returns
`only_in_console = [viewer ↦ [read]]` and `previewSync(console_to_pulsar)`
returns exactly one `add` change for `viewer`; but `sync_namespace` with
`dry_run = false` returns `changes_applied = 0` and `changes_failed = 1`
(the grant is rejected because `"read"` is not a valid Pulsar namespace
action), the stores are unchanged, and a subsequent `get_diff` still
returns `only_in_console = [viewer ↦ [read]]` and an empty `same`. -/
theorem sync_read_scenario_amended :
    (get_diff ⟨10, true, .sync_to_pulsar⟩
      ⟨[⟨1, 10, "viewer", false⟩], [⟨1, .read, .namespace, "tenantA/ns1"⟩], [], 2⟩
      "tenantA" "ns1").only_in_console = [("viewer", ["read"])] ∧
    (preview_sync ⟨10, true, .sync_to_pulsar⟩
      ⟨[⟨1, 10, "viewer", false⟩], [⟨1, .read, .namespace, "tenantA/ns1"⟩], [], 2⟩
      "tenantA" "ns1" (some .console_to_pulsar)).changes =
      [⟨"add", "namespace", "tenantA/ns1", "viewer", ["read"], "console"⟩] ∧
    (sync_namespace ⟨10, true, .sync_to_pulsar⟩
      ⟨[⟨1, 10, "viewer", false⟩], [⟨1, .read, .namespace, "tenantA/ns1"⟩], [], 2⟩
      "tenantA" "ns1" (some .console_to_pulsar) false).1.changes_applied = 0 ∧
    (sync_namespace ⟨10, true, .sync_to_pulsar⟩
      ⟨[⟨1, 10, "viewer", false⟩], [⟨1, .read, .namespace, "tenantA/ns1"⟩], [], 2⟩
      "tenantA" "ns1" (some .console_to_pulsar) false).1.changes_failed = 1 ∧
    (sync_namespace ⟨10, true, .sync_to_pulsar⟩
      ⟨[⟨1, 10, "viewer", false⟩], [⟨1, .read, .namespace, "tenantA/ns1"⟩], [], 2⟩
      "tenantA" "ns1" (some .console_to_pulsar) false).1.success = false ∧
    (sync_namespace ⟨10, true, .sync_to_pulsar⟩
      ⟨[⟨1, 10, "viewer", false⟩], [⟨1, .read, .namespace, "tenantA/ns1"⟩], [], 2⟩
      "tenantA" "ns1" (some .console_to_pulsar) false).2 =
      ⟨[⟨1, 10, "viewer", false⟩], [⟨1, .read, .namespace, "tenantA/ns1"⟩], [], 2⟩ ∧
    (get_diff ⟨10, true, .sync_to_pulsar⟩
      (sync_namespace ⟨10, true, .sync_to_pulsar⟩
        ⟨[⟨1, 10, "viewer", false⟩], [⟨1, .read, .namespace, "tenantA/ns1"⟩], [], 2⟩
        "tenantA" "ns1" (some .console_to_pulsar) false).2
      "tenantA" "ns1").only_in_console = [("viewer", ["read"])] ∧
    (get_diff ⟨10, true, .sync_to_pulsar⟩
      (sync_namespace ⟨10, true, .sync_to_pulsar⟩
        ⟨[⟨1, 10, "viewer", false⟩], [⟨1, .read, .namespace, "tenantA/ns1"⟩], [], 2⟩
        "tenantA" "ns1" (some .console_to_pulsar) false).2
      "tenantA" "ns1").same = [] := by
  decide

/-- Appending an element satisfying the predicate to a list on which
`find?` misses makes `find?` return that element. -/
theorem find?_append_singleton_of_none {α} (p : α → Bool) (nr : α) :
    ∀ l : List α, l.find? p = none → p nr = true →
      (l ++ [nr]).find? p = some nr := by
  intro l
  induction l with
  | nil =>
    intro _ h
    simp [List.find?_cons, h]
  | cons x t ih =>
    intro hnone hnr
    rw [List.find?_cons] at hnone
    rw [List.cons_append, List.find?_cons]
    cases hx : p x with
    | true =>
      rw [hx] at hnone
      exact Option.noConfusion hnone
    | false =>
      rw [hx] at hnone
      exact ih hnone hnr

/-- Clearing a role's grants for a namespace path and appending the parsed
rows leaves exactly the parseable actions stored for that key. -/
theorem filter_cleared_append_rows (rid : Nat) (path : String)
    (cg : List ConsoleGrant) (perms : List String) :
    (((cg.filter (fun g =>
        !(g.role_id == rid && g.resource_level == ResourceLevel.namespace &&
          g.resource_path == path))) ++
      perms.filterMap (fun a => (parseAction a).map
        (fun pa => (⟨rid, pa, ResourceLevel.namespace, path⟩ : ConsoleGrant)))).filter
        (fun g => g.role_id == rid && g.resource_level == ResourceLevel.namespace &&
          g.resource_path == path)).map (fun g => g.action) =
      perms.filterMap parseAction := by
  rw [List.filter_append]
  have h1 : (cg.filter (fun g =>
      !(g.role_id == rid && g.resource_level == ResourceLevel.namespace &&
        g.resource_path == path))).filter
      (fun g => g.role_id == rid && g.resource_level == ResourceLevel.namespace &&
        g.resource_path == path) = [] := by
    rw [List.filter_filter]
    have h : ∀ g : ConsoleGrant,
        ((g.role_id == rid && g.resource_level == ResourceLevel.namespace &&
          g.resource_path == path) &&
         !(g.role_id == rid && g.resource_level == ResourceLevel.namespace &&
          g.resource_path == path)) = false := by
      intro g
      cases g.role_id == rid && g.resource_level == ResourceLevel.namespace &&
        g.resource_path == path <;> rfl
    simp only [h]
    exact List.filter_false cg
  have h2 : (perms.filterMap (fun a => (parseAction a).map
      (fun pa => (⟨rid, pa, ResourceLevel.namespace, path⟩ : ConsoleGrant)))).filter
      (fun g => g.role_id == rid && g.resource_level == ResourceLevel.namespace &&
        g.resource_path == path) =
      perms.filterMap (fun a => (parseAction a).map
        (fun pa => (⟨rid, pa, ResourceLevel.namespace, path⟩ : ConsoleGrant))) := by
    apply List.filter_eq_self.mpr
    intro row hrow
    obtain ⟨a, -, hfa⟩ := List.mem_filterMap.mp hrow
    cases hpa : parseAction a with
    | none => rw [hpa] at hfa; exact Option.noConfusion hfa
    | some pa =>
      rw [hpa] at hfa
      obtain rfl : (⟨rid, pa, ResourceLevel.namespace, path⟩ : ConsoleGrant)
          = row := by simpa using hfa
      simp
  have h3 : ∀ l : List String,
      (l.filterMap (fun a => (parseAction a).map
        (fun pa => (⟨rid, pa, ResourceLevel.namespace, path⟩ : ConsoleGrant)))).map
        (fun g => g.action) = l.filterMap parseAction := by
    intro l
    induction l with
    | nil => rfl
    | cons a t ih =>
      cases hpa : parseAction a <;>
        simp [List.filterMap_cons, hpa, ih]
  rw [h1, h2, List.nil_append]
  exact h3 perms

/-- C10: in the pulsar-to-console direction, an `add` or `update` change
never fails because of an unrecognized action string: the apply step
returns success (so the change counts toward `changes_applied`), and the
Console afterwards stores exactly the recognized subset of the change's
actions for that role on that namespace. -/
theorem apply_to_console_skips_unknown_actions (env : Environment)
    (st : SyncState) (tenant ns : String) (c : SyncChange)
    (hact : c.action = "add" ∨ c.action = "update") :
    applyOne env .pulsar_to_console st c tenant ns =
      Except.ok (set_console_permission env.id st tenant ns c.role c.permissions) ∧
    consoleActions env.id
      (set_console_permission env.id st tenant ns c.role c.permissions)
      tenant ns c.role =
      c.permissions.filterMap parseAction := by
  constructor
  · rcases hact with h | h <;> simp [applyOne, apply_to_console, h]
  · cases hf : st.roles.find? (fun r => r.name == c.role &&
        r.environment_id == env.id) with
    | some r =>
      simp only [consoleActions, set_console_permission, hf]
      exact filter_cleared_append_rows r.id (tenant ++ "/" ++ ns)
        st.cgrants c.permissions
    | none =>
      simp only [consoleActions, set_console_permission, hf]
      rw [find?_append_singleton_of_none _ _ _ hf (by simp)]
      exact filter_cleared_append_rows st.nextRoleId (tenant ++ "/" ++ ns)
        st.cgrants c.permissions

/-- Witness for C10: an `add` change carrying the unknown action `"grant"`
alongside `"produce"` still applies, storing only `produce`. -/
theorem apply_to_console_skips_unknown_actions_witness :
    applyOne ⟨10, true, .read_from_pulsar⟩ .pulsar_to_console ⟨[], [], [], 1⟩
        ⟨"add", "namespace", "t/n", "viewer", ["produce", "grant"], "pulsar"⟩
        "t" "n" =
      Except.ok (set_console_permission 10 ⟨[], [], [], 1⟩ "t" "n" "viewer"
        ["produce", "grant"]) ∧
    consoleActions 10
      (set_console_permission 10 ⟨[], [], [], 1⟩ "t" "n" "viewer"
        ["produce", "grant"]) "t" "n" "viewer" = [.produce] :=
  ⟨(apply_to_console_skips_unknown_actions ⟨10, true, .read_from_pulsar⟩
      ⟨[], [], [], 1⟩ "t" "n"
      ⟨"add", "namespace", "t/n", "viewer", ["produce", "grant"], "pulsar"⟩
      (Or.inl rfl)).1,
   ((apply_to_console_skips_unknown_actions ⟨10, true, .read_from_pulsar⟩
      ⟨[], [], [], 1⟩ "t" "n"
      ⟨"add", "namespace", "t/n", "viewer", ["produce", "grant"], "pulsar"⟩
      (Or.inl rfl)).2).trans (by decide)⟩

end PulsarConsole
